import Mathlib

/-!
Verification of the stroke feature-extraction pipeline of `CROHME.py`.

The source operates on a `trace_dict`: a Python dict mapping stroke ids
(small contiguous naturals, in insertion order) to lists of integer points.
We embed it as an association list `List (Nat × List Point)`, which keeps
the dict's insertion/iteration order explicit.  Python floats are embedded
as rationals; the IEEE special values `-inf`, `inf` and `nan` that the
source manufactures via `-np.inf`/`np.inf` are embedded by the explicit
type `ExtQ` below.  Fallible Python code (raising `NameError`,
`TypeError`, `IndexError`, `ValueError`) is embedded in `Except PyError`.
The two numerical-library calls the source makes that cannot be embedded
exactly — `scipy.interpolate.splprep/splev` (inside
`interpolate_spline_points`) and `np.arctan` — are taken as parameters
(`interp`, `atan`) of the functions that use them; every theorem below is
proved for all values of those parameters, or at an explicitly chosen one.
-/

namespace CROHME

/-- A point, as produced by `get_coordinates_from_trace`: a pair of ints. -/
abbrev Point := Int × Int

/-- The `trace_dict`: stroke id to stroke, in insertion order. -/
abbrev TraceDict := List (Nat × List Point)

/-- The Python exceptions raised by the embedded code. -/
inductive PyError where
  | nameError (n : String)
  | typeError (msg : String)
  | indexError
  | valueError
deriving DecidableEq, Repr

/-- Decidable equality on `Except`, so that the closed evaluations below
can be settled by `decide`. -/
instance instDecidableEqExcept {ε α : Type} [DecidableEq ε] [DecidableEq α] :
    DecidableEq (Except ε α) := fun x y =>
  match x, y with
  | Except.ok a, Except.ok b =>
      if h : a = b then isTrue (by rw [h])
      else isFalse (by intro hh; cases hh; exact h rfl)
  | Except.error a, Except.error b =>
      if h : a = b then isTrue (by rw [h])
      else isFalse (by intro hh; cases hh; exact h rfl)
  | Except.ok _, Except.error _ => isFalse (by intro h; cases h)
  | Except.error _, Except.ok _ => isFalse (by intro h; cases h)

/-- IEEE-style extended value: the source initialises running bounds with
`-np.inf` / `np.inf` and lets numpy float arithmetic act on them. -/
inductive ExtQ where
  | negInf
  | posInf
  | nan
  | val (q : ℚ)
deriving DecidableEq, Repr

namespace ExtQ

/-- IEEE negation. -/
def neg : ExtQ → ExtQ
  | nan => nan
  | negInf => posInf
  | posInf => negInf
  | val a => val (-a)

/-- IEEE addition (`inf + (-inf) = nan`). -/
def add : ExtQ → ExtQ → ExtQ
  | nan, _ => nan
  | _, nan => nan
  | posInf, negInf => nan
  | negInf, posInf => nan
  | posInf, _ => posInf
  | _, posInf => posInf
  | negInf, _ => negInf
  | _, negInf => negInf
  | val a, val b => val (a + b)

/-- IEEE subtraction, as addition of the negation. -/
def sub (a b : ExtQ) : ExtQ := a.add b.neg

/-- IEEE multiplication (`inf * 0 = nan`). -/
def mul : ExtQ → ExtQ → ExtQ
  | nan, _ => nan
  | _, nan => nan
  | posInf, posInf => posInf
  | posInf, negInf => negInf
  | negInf, posInf => negInf
  | negInf, negInf => posInf
  | posInf, val b => if 0 < b then posInf else if b < 0 then negInf else nan
  | val a, posInf => if 0 < a then posInf else if a < 0 then negInf else nan
  | negInf, val b => if 0 < b then negInf else if b < 0 then posInf else nan
  | val a, negInf => if 0 < a then negInf else if a < 0 then posInf else nan
  | val a, val b => val (a * b)

/-- numpy-scalar division: `inf/inf = nan`, finite/inf = 0, division by zero
gives a signed infinity (or nan for 0/0) with a warning, not an exception;
the sign of zero is collapsed. -/
def div : ExtQ → ExtQ → ExtQ
  | nan, _ => nan
  | _, nan => nan
  | posInf, posInf => nan
  | posInf, negInf => nan
  | negInf, posInf => nan
  | negInf, negInf => nan
  | posInf, val b => if 0 ≤ b then posInf else negInf
  | negInf, val b => if 0 ≤ b then negInf else posInf
  | val _, posInf => val 0
  | val _, negInf => val 0
  | val a, val b =>
      if b = 0 then (if a = 0 then nan else if 0 < a then posInf else negInf)
      else val (a / b)

/-- IEEE strict less-than (`nan` compares false). -/
def blt : ExtQ → ExtQ → Bool
  | nan, _ => false
  | _, nan => false
  | negInf, negInf => false
  | negInf, _ => true
  | _, negInf => false
  | posInf, _ => false
  | val _, posInf => true
  | val a, val b => decide (a < b)

/-- IEEE less-or-equal (`nan` compares false). -/
def ble : ExtQ → ExtQ → Bool
  | nan, _ => false
  | _, nan => false
  | negInf, _ => true
  | _, posInf => true
  | posInf, _ => false
  | val _, negInf => false
  | val a, val b => decide (a ≤ b)

/-- Holds of a finite, strictly positive value. -/
def isPosVal : ExtQ → Bool
  | val q => decide (0 < q)
  | _ => false

/-- Holds of a finite value. -/
def isVal : ExtQ → Bool
  | val _ => true
  | _ => false

end ExtQ

/-- `np.mean` of a list of rationals (the embedding maps the empty list to
`0/0 = 0`; the source code only takes a mean of an empty list when the
whole `trace_dict` is empty, where numpy would yield `nan` with a
`RuntimeWarning`). -/
def listMean (l : List ℚ) : ℚ := l.sum / (l.length : ℚ)

/-- Python `int(..)` on a float: truncation toward zero. -/
def pyInt (q : ℚ) : Int := if 0 ≤ q then ⌊q⌋ else ⌈q⌉

/-- `np.amax` on a Python list of ints: `ValueError` on a zero-size array. -/
def np_amax (l : List Int) : Except PyError Int :=
  match l with
  | [] => Except.error PyError.valueError
  | x :: xs => Except.ok (xs.foldl max x)

/-- `np.amin` on a Python list of ints: `ValueError` on a zero-size array. -/
def np_amin (l : List Int) : Except PyError Int :=
  match l with
  | [] => Except.error PyError.valueError
  | x :: xs => Except.ok (xs.foldl min x)

/-- `np.linspace(start, stop, num)`: `start + arange(num) * (stop-start)/(num-1)`,
over extended values (the source reaches this with `stop = -inf` when the
trace dict is empty). -/
def np_linspace (start stop : ExtQ) (num : Nat) : List ExtQ :=
  let delta := (stop.sub start).div (ExtQ.val ((num - 1 : Nat) : ℚ))
  (List.range num).map (fun k => ((ExtQ.val (k : ℚ)).mul delta).add start)

/-- Source lines 60-73: split a list of points into the list of x
coordinates and the list of y coordinates. -/
def separate_x_y_coors_from_points (points : List Point) : List Int × List Int :=
  (points.map (fun p => p.1), points.map (fun p => p.2))

/-- Source lines 92-108: total number of points and number of strokes. -/
def extract_num_points_and_strokes (trace_dict : TraceDict) : Nat × Nat :=
  (trace_dict.foldl (fun num_points kv => num_points + kv.2.length) 0, trace_dict.length)

/-- Direction code of source line 124. -/
def up : Nat := 1
/-- Direction code of source line 125. -/
def down : Nat := 2
/-- Direction code of source line 126. -/
def left : Nat := 3
/-- Direction code of source line 127. -/
def right : Nat := 4

/-- Body of the loop of source lines 133-146 (one iteration, index `i`):
under the `len < 4` guard, four independent membership-guarded appends,
vertical tests before horizontal tests, each test reading the list as
already extended by the previous appends of the same iteration. -/
def dirStep (x_coors y_coors : List Int) (dft : List Nat) (i : Nat) : List Nat :=
  if dft.length < 4 then
    let d1 := if up ∉ dft ∧ 0 < y_coors.getD i 0 - y_coors.getD (i - 1) 0 then dft ++ [up] else dft
    let d2 := if down ∉ d1 ∧ y_coors.getD i 0 - y_coors.getD (i - 1) 0 < 0 then d1 ++ [down] else d1
    let d3 := if left ∉ d2 ∧ x_coors.getD i 0 - x_coors.getD (i - 1) 0 < 0 then d2 ++ [left] else d2
    let d4 := if right ∉ d3 ∧ 0 < x_coors.getD i 0 - x_coors.getD (i - 1) 0 then d3 ++ [right] else d3
    d4
  else dft

/-- Source lines 131-146: the per-stroke direction list
(`directions_for_trace`), folding `dirStep` over `range(1, len(x_coors))`. -/
def directions_for_trace (points : List Point) : List Nat :=
  let s := separate_x_y_coors_from_points points
  (List.range' 1 (s.1.length - 1)).foldl (dirStep s.1 s.2) []

/-- Source lines 110-150: concatenation of the per-stroke direction lists
in dict iteration order. -/
def extract_directions (trace_dict : TraceDict) : List Nat :=
  trace_dict.foldl (fun directions kv => directions ++ directions_for_trace kv.2) []

/-- Body of the loop of source lines 166-180 (one iteration, index `i`).
The placeholders `delta_x = 0.01`, `delta_y = 0` assigned at the top of
every iteration of the source loop are read only inside the
`len(x_coors) > 4` branch, where both are overwritten before use, so no
append at all happens for a stroke of length at most 4. -/
def curvStep (atan : ℚ → ℚ) (x_coors y_coors : List Int) (tc : List ℚ) (i : Nat) : List ℚ :=
  if 4 < x_coors.length then
    let d : Int × Int :=
      if i < 2 then
        (x_coors.getD (i + 2) 0 - x_coors.getD i 0, y_coors.getD (i + 2) 0 - y_coors.getD i 0)
      else if x_coors.length - 3 < i then
        (x_coors.getD i 0 - x_coors.getD (i - 2) 0, y_coors.getD i 0 - y_coors.getD (i - 2) 0)
      else
        (x_coors.getD (i + 2) 0 - x_coors.getD (i - 2) 0, y_coors.getD (i + 2) 0 - y_coors.getD (i - 2) 0)
    if d.1 ≠ 0 then tc ++ [atan ((d.2 : ℚ) / (d.1 : ℚ))] else tc
  else tc

/-- Source lines 164-180: the `trace_curves` list of one stroke — the
arctangents of the computed finite-difference slopes. `np.arctan` is the
parameter `atan`. -/
def trace_curves (atan : ℚ → ℚ) (points : List Point) : List ℚ :=
  let s := separate_x_y_coors_from_points points
  (List.range' 1 (s.1.length - 1)).foldl (curvStep atan s.1 s.2) []

/-- Source lines 181-184: the value appended to `character_curvature` for
one stroke — 0 when no slope was computed, else the mean of the computed
slopes. -/
def strokeCurvature (atan : ℚ → ℚ) (points : List Point) : ℚ :=
  if (trace_curves atan points).length = 0 then 0 else listMean (trace_curves atan points)

/-- Source lines 152-185: sample-level curvature, the mean of the
per-stroke values accumulated in dict iteration order. -/
def extract_curvature (atan : ℚ → ℚ) (trace_dict : TraceDict) : ℚ :=
  listMean (trace_dict.foldl (fun cc kv => cc ++ [strokeCurvature atan kv.2]) [])

/-- Body of the loop of source lines 199-204: update the four running
bounds `(max_x, max_y, min_x, min_y)` with one stroke; `np.amax`/`np.amin`
raise `ValueError` on an empty stroke. -/
def aspectBoundsStep (b : ExtQ × ExtQ × ExtQ × ExtQ) (kv : Nat × List Point) :
    Except PyError (ExtQ × ExtQ × ExtQ × ExtQ) := do
  let s := separate_x_y_coors_from_points kv.2
  let axv ← np_amax s.1
  let ayv ← np_amax s.2
  let ixv ← np_amin s.1
  let iyv ← np_amin s.2
  pure (if b.1.blt (ExtQ.val axv) then ExtQ.val axv else b.1,
        if b.2.1.blt (ExtQ.val ayv) then ExtQ.val ayv else b.2.1,
        if (ExtQ.val ixv).blt b.2.2.1 then ExtQ.val ixv else b.2.2.1,
        if (ExtQ.val iyv).blt b.2.2.2 then ExtQ.val iyv else b.2.2.2)

/-- Source lines 187-213: bounding box over all strokes (bounds started at
`-inf`/`inf`), width and height clamped to `0.01` when not positive,
aspect ratio their quotient. -/
def extract_aspect_ratio (trace_dict : TraceDict) : Except PyError ExtQ := do
  let b ← trace_dict.foldlM aspectBoundsStep
    (ExtQ.negInf, ExtQ.negInf, ExtQ.posInf, ExtQ.posInf)
  let width := b.1.sub b.2.2.1
  let height := b.2.1.sub b.2.2.2
  let width := if width.ble (ExtQ.val 0) then ExtQ.val (1 / 100) else width
  let height := if height.ble (ExtQ.val 0) then ExtQ.val (1 / 100) else height
  pure (width.div height)

/-- A Python value flowing into `separate_x_y_coors_from_points`: iterating
a dict yields its int keys, so the buggy loops of `extract_frequencies`
(source lines 230, 248) pass an int where a list of points is expected. -/
inductive PyVal where
  | int (z : Int)
  | pointList (ps : List Point)

/-- `separate_x_y_coors_from_points` as called in `extract_frequencies`:
its list comprehensions iterate the argument, so an int argument raises
`TypeError`. -/
def separate_py : PyVal → Except PyError (List Int × List Int)
  | PyVal.int _ => Except.error (PyError.typeError "int object is not iterable")
  | PyVal.pointList ps => Except.ok (separate_x_y_coors_from_points ps)

/-- Body of the loop of source lines 230-235: one bounding-box update of
`extract_frequencies`, fed a dict key `k` (`for trace in trace_dict`
iterates keys). -/
def freqBoundsStep (b : ExtQ × ExtQ × ExtQ × ExtQ) (k : Nat) :
    Except PyError (ExtQ × ExtQ × ExtQ × ExtQ) := do
  let s ← separate_py (PyVal.int (k : Int))
  let axv ← np_amax s.1
  let ayv ← np_amax s.2
  let ixv ← np_amin s.1
  let iyv ← np_amin s.2
  pure (if b.1.blt (ExtQ.val axv) then ExtQ.val axv else b.1,
        if b.2.1.blt (ExtQ.val ayv) then ExtQ.val ayv else b.2.1,
        if (ExtQ.val ixv).blt b.2.2.1 then ExtQ.val ixv else b.2.2.1,
        if (ExtQ.val iyv).blt b.2.2.2 then ExtQ.val iyv else b.2.2.2)

/-- Body of the loop of source lines 248-275, fed a dict key `k`.  Its
first statement repeats the key/int `TypeError`; were that passed, the
next statement `for x in x_coor` reads the name `x_coor`, which is bound
nowhere in `extract_frequencies` (the local is `x_coors`) nor at module
level, raising `NameError`. -/
def freqCountStep (intervals_x intervals_y : List ExtQ) (fr : List Nat × List Nat)
    (k : Nat) : Except PyError (List Nat × List Nat) := do
  let _ ← separate_py (PyVal.int (k : Int))
  Except.error (PyError.nameError "x_coor")

/-- Source lines 216-278: `extract_frequencies` as written, iterating the
dict (hence its keys) in both loops. -/
def extract_frequencies (trace_dict : TraceDict) : Except PyError (List Nat × List Nat) := do
  let b ← trace_dict.foldlM (fun bb kv => freqBoundsStep bb kv.1)
    (ExtQ.negInf, ExtQ.negInf, ExtQ.posInf, ExtQ.posInf)
  let range_x := b.1.sub b.2.2.1
  let intervals_x := (np_linspace (ExtQ.val 0) range_x 6).map (fun v => v.add b.2.2.1)
  let range_y := b.2.1.sub b.2.2.2
  let intervals_y := (np_linspace (ExtQ.val 0) range_y 6).map (fun v => v.add b.2.2.2)
  trace_dict.foldlM (fun fr kv => freqCountStep intervals_x intervals_y fr kv.1)
    ([0, 0, 0, 0, 0], [0, 0, 0, 0, 0])

/-- Source lines 304-311, one stroke: keep `points[0]` (an `IndexError`
on an empty stroke), then for `i in range(len(points)-2)` keep
`points[i+1]` when it differs from `points[i]`, then append `points[-1]`
exactly when it differs from `points[0]`. -/
def remove_dups_stroke (points : List Point) : Except PyError (List Point) :=
  match points with
  | [] => Except.error PyError.indexError
  | p0 :: _ =>
    let kept := (List.range (points.length - 2)).foldl
      (fun acc i =>
        if points.getD i (0, 0) ≠ points.getD (i + 1) (0, 0)
        then acc ++ [points.getD (i + 1) (0, 0)] else acc)
      [p0]
    if p0 ≠ points.getLastD (0, 0)
    then Except.ok (kept ++ [points.getLastD (0, 0)])
    else Except.ok kept

/-- Source lines 293-317: duplicate collapse over the whole dict, ids in
iteration order. -/
def remove_consecutive_duplicate_points (trace_dict : TraceDict) : Except PyError TraceDict :=
  trace_dict.foldlM
    (fun new_trace_dict kv => do
      let pts ← remove_dups_stroke kv.2
      pure (new_trace_dict ++ [(kv.1, pts)]))
    []

/-- The shape of the scipy-backed `interpolate_spline_points` (source lines
320-340): from the coordinate lists and the chosen degree to the
interpolated float coordinate lists.  The numerical fit itself is not
embedded; the functions below are parameterised over it.  It is fallible:
`scipy.interpolate.splprep` can raise — e.g. `ValueError` on the
non-strictly-increasing chord parameterization produced by consecutive
duplicate points that survive the collapse, such as the tail of
`[p, q, q]` — and such an exception propagates out of `smooth_points`
uncaught. -/
abbrev Interp := List Int → List Int → Nat → Except PyError (List ℚ × List ℚ)

/-- Source lines 353-367, one stroke: pick the spline degree from the
point count (2 points degree 1, 3 points degree 2, more than 3 degree 3,
otherwise no fit — the interpolation, which may raise, is only called in
the three degree branches), round the interpolated coordinates with
`int(..)`, and fall back to the original points when no new points were
produced. -/
def smooth_stroke (interp : Interp) (points : List Point) :
    Except PyError (List Point) := do
  let s := separate_x_y_coors_from_points points
  let nxy ← (if s.1.length = 2 then interp s.1 s.2 1
    else if s.1.length = 3 then interp s.1 s.2 2
    else if 3 < s.1.length then interp s.1 s.2 3
    else Except.ok ([], []))
  let new_points := (nxy.1.zip nxy.2).map (fun ab => (pyInt ab.1, pyInt ab.2))
  pure (if new_points.length ≠ 0 then new_points else points)

/-- Source lines 342-372: smoothing over the whole dict, ids in iteration
order; an exception raised by the fit propagates (there is no
`try`/`except` in the source). -/
def smooth_points (interp : Interp) (trace_dict : TraceDict) :
    Except PyError TraceDict :=
  trace_dict.foldlM
    (fun new_trace_dict kv => do
      let pts ← smooth_stroke interp kv.2
      pure (new_trace_dict ++ [(kv.1, pts)]))
    []

/-- The names assigned somewhere in the body of `extract_features` (source
lines 374-405), hence its local variables: its parameters, the `with`
target, the loop targets and every assigned name. -/
def extractFeaturesLocalNames : List String :=
  ["file", "draw_input_data", "f", "soup", "unique_id", "node", "trace_dict",
   "i", "trace", "num_points", "num_strokes", "directions", "curvature",
   "aspect_ratio", "frequencies"]

/-- The module-level names of `CROHME.py`: its imports (lines 1-12) and its
top-level assignments and function definitions. -/
def crohmeModuleNames : List String :=
  ["os", "csv", "plt", "pd", "np", "bs4", "platform", "interpolate",
   "RandomForestClassifier", "train_test_split", "classification_report",
   "confusion_matrix", "EXCLUDED_FILES", "WINDOWS_PLATFORM", "DEBUG",
   "file_sorting_helper", "get_coordinates_from_trace",
   "separate_x_y_coors_from_points", "draw_xml_file",
   "extract_num_points_and_strokes", "extract_directions", "extract_curvature",
   "extract_aspect_ratio", "extract_frequencies", "normalize_drawing",
   "remove_consecutive_duplicate_points", "interpolate_spline_points",
   "smooth_points", "extract_features", "read_training_symbol_directory",
   "read_training_junk_directory", "map_ids_to_symbols", "build_training_data",
   "run_random_forest_classifier", "main"]

/-- The record returned by `extract_features` (source lines 404-405). -/
structure FeatureRow where
  ui : String
  num_points : Nat
  num_strokes : Nat
  directions : List Nat
  curvature : ℚ
  aspect_ratio : ExtQ
  frequencies : List Nat × List Nat
  symbol_representation : Option String
deriving DecidableEq, Repr

/-- Source lines 374-405: the pipeline of `extract_features` after the
file parsing (the XML/BeautifulSoup part is out of scope; its results are
the inputs `unique_id` and `trace_dict`; `draw_input_data` only controls
plotting and is taken as false).  Line 402 reads the name `trace_groups`,
which is neither a local of `extract_features` nor a module-level name
(nor a Python builtin), so name resolution raises `NameError` there; the
then-branch, in which the name would have resolved, is unreachable. -/
def extract_features (interp : Interp) (atan : ℚ → ℚ) (unique_id : String)
    (trace_dict0 : TraceDict) : Except PyError FeatureRow := do
  let td1 ← remove_consecutive_duplicate_points trace_dict0
  let trace_dict ← smooth_points interp td1
  let nps := extract_num_points_and_strokes trace_dict
  let directions := extract_directions trace_dict
  let curvature := extract_curvature atan trace_dict
  let aspect_ratio ← extract_aspect_ratio trace_dict
  let frequencies ←
    if "trace_groups" ∈ extractFeaturesLocalNames ∨ "trace_groups" ∈ crohmeModuleNames
    then extract_frequencies trace_dict
    else Except.error (PyError.nameError "trace_groups")
  pure { ui := unique_id, num_points := nps.1, num_strokes := nps.2,
         directions := directions, curvature := curvature,
         aspect_ratio := aspect_ratio, frequencies := frequencies,
         symbol_representation := none }

/-- A concrete instance of the scipy fit parameter, used to evaluate
closed statements: it raises nothing and returns no points, exercising the
documented fall-back of `smooth_points` (the theorems quantifying over
`interp` do not depend on this choice). -/
def interpNone : Interp := fun _ _ _ => Except.ok ([], [])

/-- A concrete instance of the `np.arctan` parameter for closed
statements (the theorems quantifying over `atan` do not depend on it). -/
def atanZero : ℚ → ℚ := fun _ => 0

/-! ### Lemmas about the duplicate-collapse loop -/

/-- A left fold whose step either keeps the accumulator or appends one
element to it extends the accumulator by at most one element per input. -/
theorem foldl_append_shape {α β : Type} (g : List α → β → List α)
    (hg : ∀ a i, g a i = a ∨ ∃ x, g a i = a ++ [x]) :
    ∀ (l : List β) (acc : List α),
      ∃ t, l.foldl g acc = acc ++ t ∧ t.length ≤ l.length := by
  intro l
  induction l with
  | nil => intro acc; exact ⟨[], by simp⟩
  | cons i l ih =>
    intro acc
    rw [List.foldl_cons]
    rcases hg acc i with h | ⟨x, h⟩
    · rw [h]
      obtain ⟨t, ht, hlen⟩ := ih acc
      refine ⟨t, ht, ?_⟩
      simp only [List.length_cons]
      omega
    · rw [h]
      obtain ⟨t, ht, hlen⟩ := ih (acc ++ [x])
      refine ⟨x :: t, ?_, ?_⟩
      · rw [ht, List.append_assoc]
        rfl
      · simp only [List.length_cons]
        omega

/-- Structure of `remove_dups_stroke` on a non-empty stroke: it succeeds,
the result is non-empty, no longer than the input, starts at the first
point, and ends at the last point whenever that differs from the first. -/
theorem remove_dups_stroke_spec (p0 : Point) (rest : List Point) :
    ∃ res, remove_dups_stroke (p0 :: rest) = Except.ok res ∧
      res ≠ [] ∧
      res.length ≤ (p0 :: rest).length ∧
      res.headD (0, 0) = p0 ∧
      (p0 ≠ (p0 :: rest).getLastD (0, 0) →
        res.getLastD (0, 0) = (p0 :: rest).getLastD (0, 0)) := by
  obtain ⟨t, ht, hlen⟩ := foldl_append_shape
    (fun acc i =>
      if (p0 :: rest).getD i (0, 0) ≠ (p0 :: rest).getD (i + 1) (0, 0)
      then acc ++ [(p0 :: rest).getD (i + 1) (0, 0)] else acc)
    (by
      intro a i
      by_cases h : (p0 :: rest).getD i (0, 0) ≠ (p0 :: rest).getD (i + 1) (0, 0)
      · exact Or.inr ⟨_, if_pos h⟩
      · exact Or.inl (if_neg h))
    (List.range ((p0 :: rest).length - 2)) [p0]
  rw [List.length_range] at hlen
  have hkey : remove_dups_stroke (p0 :: rest) =
      if p0 ≠ (p0 :: rest).getLastD (0, 0)
      then Except.ok (([p0] ++ t) ++ [(p0 :: rest).getLastD (0, 0)])
      else Except.ok ([p0] ++ t) := by
    simp only [remove_dups_stroke]
    rw [ht]
  by_cases hlast : p0 ≠ (p0 :: rest).getLastD (0, 0)
  · rw [if_pos hlast] at hkey
    refine ⟨_, hkey, by simp, ?_, by simp, ?_⟩
    · have hrest : rest ≠ [] := by
        intro h
        exact hlast (by simp [h])
      have h1 : 1 ≤ rest.length := List.length_pos.mpr hrest
      simp only [List.length_append, List.length_cons, List.length_nil] at hlen ⊢
      omega
    · intro _
      exact List.getLastD_concat _ _ _
  · rw [if_neg hlast] at hkey
    refine ⟨_, hkey, by simp, ?_, by simp, fun h => absurd h hlast⟩
    simp only [List.length_append, List.length_cons, List.length_nil] at hlen ⊢
    omega

/-- On a trace dict whose strokes are all non-empty, duplicate collapse
succeeds and every resulting stroke is again non-empty. -/
theorem dedup_fold_ok (td : TraceDict) :
    ∀ acc : TraceDict, (∀ kv ∈ td, kv.2 ≠ []) → (∀ kv ∈ acc, kv.2 ≠ []) →
      ∃ td1, (td.foldlM
          (fun new_trace_dict kv => do
            let pts ← remove_dups_stroke kv.2
            pure (new_trace_dict ++ [(kv.1, pts)])) acc) = Except.ok td1 ∧
        ∀ kv ∈ td1, kv.2 ≠ [] := by
  induction td with
  | nil => intro acc _ hacc; exact ⟨acc, rfl, hacc⟩
  | cons kv rest ih =>
    intro acc hall hacc
    have hkv : kv.2 ≠ [] := hall kv (by simp)
    obtain ⟨p0, r, hr⟩ : ∃ p0 r, kv.2 = p0 :: r := by
      cases h : kv.2 with
      | nil => exact absurd h hkv
      | cons a b => exact ⟨a, b, rfl⟩
    obtain ⟨res, hres, hresne, -, -, -⟩ := remove_dups_stroke_spec p0 r
    rw [← hr] at hres
    obtain ⟨td1, htd1, hall1⟩ := ih (acc ++ [(kv.1, res)])
      (fun x hx => hall x (by simp [hx]))
      (by
        intro x hx
        rcases List.mem_append.mp hx with h | h
        · exact hacc x h
        · simp only [List.mem_singleton] at h
          rw [h]
          exact hresne)
    refine ⟨td1, ?_, hall1⟩
    rw [List.foldlM_cons, hres]
    simpa using htd1

/-- If some stroke of the trace dict is empty, duplicate collapse raises
`IndexError` (the read of `points[0]`). -/
theorem dedup_fold_err (td : TraceDict) :
    ∀ acc : TraceDict, (∃ kv ∈ td, kv.2 = []) →
      (td.foldlM
          (fun new_trace_dict kv => do
            let pts ← remove_dups_stroke kv.2
            pure (new_trace_dict ++ [(kv.1, pts)])) acc) =
        Except.error PyError.indexError := by
  induction td with
  | nil => intro acc h; simp at h
  | cons kv rest ih =>
    intro acc h
    by_cases hkv : kv.2 = []
    · rw [List.foldlM_cons, hkv]
      rfl
    · obtain ⟨kv0, hmem, hempty⟩ := h
      have hrest : ∃ kv0 ∈ rest, kv0.2 = [] := by
        rcases List.mem_cons.mp hmem with h | h
        · exact absurd (h ▸ hempty) hkv
        · exact ⟨kv0, h, hempty⟩
      obtain ⟨p0, r, hr⟩ : ∃ p0 r, kv.2 = p0 :: r := by
        cases h : kv.2 with
        | nil => exact absurd h hkv
        | cons a b => exact ⟨a, b, rfl⟩
      obtain ⟨res, hres, -, -, -, -⟩ := remove_dups_stroke_spec p0 r
      rw [← hr] at hres
      rw [List.foldlM_cons, hres]
      simpa using ih _ hrest

/-- `remove_consecutive_duplicate_points` on an all-non-empty dict:
success, with all strokes non-empty. -/
theorem dedup_ok (td : TraceDict) (h : ∀ kv ∈ td, kv.2 ≠ []) :
    ∃ td1, remove_consecutive_duplicate_points td = Except.ok td1 ∧
      ∀ kv ∈ td1, kv.2 ≠ [] :=
  dedup_fold_ok td [] h (by simp)

/-- `remove_consecutive_duplicate_points` on a dict with an empty stroke:
`IndexError`. -/
theorem dedup_err (td : TraceDict) (h : ∃ kv ∈ td, kv.2 = []) :
    remove_consecutive_duplicate_points td = Except.error PyError.indexError :=
  dedup_fold_err td [] h

/-! ### Plumbing lemmas for `Except` -/

/-- Binding a success in `Except` applies the continuation. -/
theorem except_bind_ok {ε α β : Type} (a : α) (f : α → Except ε β) :
    (Except.ok a >>= f) = f a := rfl

/-- Binding a failure in `Except` propagates it. -/
theorem except_bind_error {ε α β : Type} (e : ε) (f : α → Except ε β) :
    (Except.error e >>= f) = Except.error e := rfl

/-- Binding a pure value in `Except` applies the continuation. -/
theorem except_pure_bind {ε α β : Type} (a : α) (f : α → Except ε β) :
    ((pure a : Except ε α) >>= f) = f a := rfl

/-- Inversion for a bind whose continuation is pure: a successful result
comes from a successful first stage. -/
theorem except_bind_pure_ok {ε α β : Type} (x : Except ε α) (f : α → β) (b : β)
    (h : (x >>= fun a => pure (f a)) = Except.ok b) :
    ∃ a, x = Except.ok a ∧ b = f a := by
  cases x with
  | error e =>
    have h2 : (Except.error e : Except ε β) = Except.ok b := h
    exact Except.noConfusion h2
  | ok a =>
    have h2 : Except.ok (f a) = Except.ok b := h
    injection h2 with h'
    exact ⟨a, rfl, h'.symm⟩

/-! ### Lemmas about the smoother -/

/-- A stroke with fewer than 2 points takes none of the three degree
branches (so the fallible interpolation is never called), no new points
are produced, and the fall-back returns the stroke unchanged. -/
theorem smooth_stroke_short (interp : Interp) (points : List Point)
    (h : points.length ≤ 1) : smooth_stroke interp points = Except.ok points := by
  have h2 : ¬ points.length = 2 := by omega
  have h3 : ¬ points.length = 3 := by omega
  have h4 : ¬ 3 < points.length := by omega
  simp [smooth_stroke, separate_x_y_coors_from_points, h2, h3, h4,
    except_bind_ok, pure, Except.pure]

/-- The final fall-back of the smoother: whichever branch the `if` takes,
the result of one stroke is non-empty when the original stroke is. -/
theorem ite_len_ne_nil (np points : List Point) (h : points ≠ []) :
    (if np.length ≠ 0 then np else points) ≠ [] := by
  by_cases hn : np.length ≠ 0
  · rw [if_pos hn]
    intro hh
    rw [hh] at hn
    exact hn rfl
  · rwa [if_neg hn]

/-- When smoothing a non-empty stroke succeeds, its result is non-empty:
either the interpolated points are kept (their length is non-zero) or the
original points are. -/
theorem smooth_stroke_ne_nil (interp : Interp) (points : List Point)
    (h : points ≠ []) :
    ∀ res, smooth_stroke interp points = Except.ok res → res ≠ [] := by
  intro res hres
  simp only [smooth_stroke] at hres
  obtain ⟨nxy, -, hr⟩ := except_bind_pure_ok _ _ _ hres
  rw [hr]
  exact ite_len_ne_nil _ _ h

/-- If the smoothing fold over a dict of non-empty strokes succeeds
(starting from an accumulator of non-empty strokes), every stroke of the
result is non-empty. -/
theorem smooth_fold_ne_nil (interp : Interp) (td : TraceDict) :
    ∀ (acc td2 : TraceDict), (∀ kv ∈ td, kv.2 ≠ []) → (∀ kv ∈ acc, kv.2 ≠ []) →
      (td.foldlM
          (fun new_trace_dict kv => do
            let pts ← smooth_stroke interp kv.2
            pure (new_trace_dict ++ [(kv.1, pts)])) acc) = Except.ok td2 →
      ∀ kv ∈ td2, kv.2 ≠ [] := by
  induction td with
  | nil =>
    intro acc td2 _ hacc h
    rw [List.foldlM_nil] at h
    have h2 : (Except.ok acc : Except PyError TraceDict) = Except.ok td2 := h
    injection h2 with h'
    exact h' ▸ hacc
  | cons kv rest ih =>
    intro acc td2 hall hacc h
    rw [List.foldlM_cons] at h
    cases hs : smooth_stroke interp kv.2 with
    | error e =>
      rw [hs] at h
      simp only [except_bind_error] at h
      exact Except.noConfusion h
    | ok pts =>
      rw [hs] at h
      simp only [except_bind_ok, except_pure_bind] at h
      have hpts : pts ≠ [] := smooth_stroke_ne_nil interp kv.2 (hall kv (by simp)) pts hs
      refine ih (acc ++ [(kv.1, pts)]) td2 (fun x hx => hall x (by simp [hx])) ?_ h
      intro x hx
      rcases List.mem_append.mp hx with h' | h'
      · exact hacc x h'
      · simp only [List.mem_singleton] at h'
        rw [h']
        exact hpts

/-- If `smooth_points` succeeds on a dict of non-empty strokes, every
smoothed stroke is again non-empty. -/
theorem smooth_ok_ne_nil (interp : Interp) (td1 td2 : TraceDict)
    (h1 : ∀ kv ∈ td1, kv.2 ≠ [])
    (h : smooth_points interp td1 = Except.ok td2) :
    ∀ kv ∈ td2, kv.2 ≠ [] :=
  smooth_fold_ne_nil interp td1 [] td2 h1 (by simp) h

/-! ### Lemmas about the direction extractor -/

/-- Invariant of the per-stroke direction accumulator: no duplicates, and
only the four direction codes occur. -/
def DirInv (l : List Nat) : Prop :=
  l.Nodup ∧ ∀ x ∈ l, x ∈ [up, down, left, right]

/-- One membership-guarded append preserves the accumulator invariant. -/
theorem dirInv_append (c : Nat) (hc : c ∈ [up, down, left, right])
    (P : Prop) [Decidable P] (d : List Nat) (hd : DirInv d) :
    DirInv (if c ∉ d ∧ P then d ++ [c] else d) := by
  by_cases h : c ∉ d ∧ P
  · rw [if_pos h]
    refine ⟨List.nodup_append.mpr ⟨hd.1, by simp, ?_⟩, ?_⟩
    · intro x hx hx'
      simp only [List.mem_singleton] at hx'
      exact h.1 (hx' ▸ hx)
    · intro x hx
      rcases List.mem_append.mp hx with hx | hx
      · exact hd.2 x hx
      · simp only [List.mem_singleton] at hx
        exact hx ▸ hc
  · rwa [if_neg h]

/-- One iteration of the direction loop preserves the invariant. -/
theorem dirStep_inv (x_coors y_coors : List Int) (d : List Nat) (i : Nat)
    (hd : DirInv d) : DirInv (dirStep x_coors y_coors d i) := by
  unfold dirStep
  by_cases h : d.length < 4
  · rw [if_pos h]
    exact dirInv_append _ (by simp) _ _
      (dirInv_append _ (by simp) _ _
        (dirInv_append _ (by simp) _ _
          (dirInv_append _ (by simp) _ _ hd)))
  · rwa [if_neg h]

/-- The invariant holds after folding the direction loop. -/
theorem dir_fold_inv (x_coors y_coors : List Int) :
    ∀ (l : List Nat) (acc : List Nat), DirInv acc →
      DirInv (l.foldl (dirStep x_coors y_coors) acc) := by
  intro l
  induction l with
  | nil => intro acc h; exact h
  | cons i l ih =>
    intro acc h
    rw [List.foldl_cons]
    exact ih _ (dirStep_inv x_coors y_coors acc i h)

/-- The invariant bounds the accumulator's length by 4. -/
theorem dirInv_length (l : List Nat) (h : DirInv l) : l.length ≤ 4 := by
  have hcard : l.toFinset.card = l.length := List.toFinset_card_of_nodup h.1
  have hsub : l.toFinset ⊆ ({up, down, left, right} : Finset Nat) := by
    intro x hx
    have := h.2 x (List.mem_toFinset.mp hx)
    simpa using this
  have := Finset.card_le_card hsub
  rw [hcard] at this
  exact le_trans this (by decide)

/-! ### Lemmas about the curvature extractor -/

/-- For a stroke of length at most 4 the guard `len(x_coors) > 4` fails,
so one curvature iteration appends nothing. -/
theorem curvStep_short (atan : ℚ → ℚ) (x_coors y_coors : List Int)
    (h : x_coors.length ≤ 4) (tc : List ℚ) (i : Nat) :
    curvStep atan x_coors y_coors tc i = tc := by
  unfold curvStep
  rw [if_neg (by omega)]

/-- A fold whose step is the identity returns its start value. -/
theorem foldl_id {α β : Type} (g : α → β → α) (hg : ∀ a i, g a i = a) :
    ∀ (l : List β) (acc : α), l.foldl g acc = acc := by
  intro l
  induction l with
  | nil => intro acc; rfl
  | cons i l ih =>
    intro acc
    rw [List.foldl_cons, hg]
    exact ih acc

/-- For a stroke of length at most 4 no slope at all is collected. -/
theorem trace_curves_short (atan : ℚ → ℚ) (points : List Point)
    (h : points.length ≤ 4) : trace_curves atan points = [] := by
  simp only [trace_curves]
  exact foldl_id _
    (fun a i => curvStep_short atan _ _
      (by simpa [separate_x_y_coors_from_points] using h) a i) _ _

/-- Folding list-append of one element per item is mapping. -/
theorem foldl_concat_eq_map {α β : Type} (f : α → β) :
    ∀ (l : List α) (acc : List β),
      l.foldl (fun cc kv => cc ++ [f kv]) acc = acc ++ l.map f := by
  intro l
  induction l with
  | nil => intro acc; simp
  | cons a l ih =>
    intro acc
    rw [List.foldl_cons, ih, List.map_cons, List.append_assoc]
    rfl

/-! ### Lemmas about the aspect-ratio extractor -/

/-- `np.amax` succeeds on a non-empty list. -/
theorem np_amax_ok (l : List Int) (h : l ≠ []) : ∃ a, np_amax l = Except.ok a := by
  cases l with
  | nil => exact absurd rfl h
  | cons x xs => exact ⟨_, rfl⟩

/-- `np.amin` succeeds on a non-empty list. -/
theorem np_amin_ok (l : List Int) (h : l ≠ []) : ∃ a, np_amin l = Except.ok a := by
  cases l with
  | nil => exact absurd rfl h
  | cons x xs => exact ⟨_, rfl⟩

/-- All four running bounds are finite values. -/
def Finite4 (b : ExtQ × ExtQ × ExtQ × ExtQ) : Prop :=
  (∃ q, b.1 = ExtQ.val q) ∧ (∃ q, b.2.1 = ExtQ.val q) ∧
  (∃ q, b.2.2.1 = ExtQ.val q) ∧ (∃ q, b.2.2.2 = ExtQ.val q)

/-- A bound update keeps finiteness: either the new extremum is taken or
the old finite bound is kept. -/
theorem exists_val_ite (P : Prop) [Decidable P] (a : ℚ) (x : ExtQ)
    (hx : ∃ q, x = ExtQ.val q) :
    ∃ q, (if P then ExtQ.val a else x) = ExtQ.val q := by
  by_cases h : P
  · exact ⟨a, if_pos h⟩
  · obtain ⟨q, hq⟩ := hx
    exact ⟨q, by rw [if_neg h, hq]⟩

/-- One bounding-box update over a non-empty stroke succeeds, and turns
both the initial infinite bounds and finite bounds into finite bounds. -/
theorem aspectBoundsStep_ok (b : ExtQ × ExtQ × ExtQ × ExtQ) (kv : Nat × List Point)
    (hkv : kv.2 ≠ [])
    (hb : b = (ExtQ.negInf, ExtQ.negInf, ExtQ.posInf, ExtQ.posInf) ∨ Finite4 b) :
    ∃ b', aspectBoundsStep b kv = Except.ok b' ∧ Finite4 b' := by
  have hx : (separate_x_y_coors_from_points kv.2).1 ≠ [] := by
    simpa [separate_x_y_coors_from_points] using hkv
  have hy : (separate_x_y_coors_from_points kv.2).2 ≠ [] := by
    simpa [separate_x_y_coors_from_points] using hkv
  obtain ⟨ax, hax⟩ := np_amax_ok _ hx
  obtain ⟨ay, hay⟩ := np_amax_ok _ hy
  obtain ⟨ix, hix⟩ := np_amin_ok _ hx
  obtain ⟨iy, hiy⟩ := np_amin_ok _ hy
  refine ⟨(if b.1.blt (ExtQ.val (ax : ℚ)) then ExtQ.val (ax : ℚ) else b.1,
           if b.2.1.blt (ExtQ.val (ay : ℚ)) then ExtQ.val (ay : ℚ) else b.2.1,
           if (ExtQ.val (ix : ℚ)).blt b.2.2.1 then ExtQ.val (ix : ℚ) else b.2.2.1,
           if (ExtQ.val (iy : ℚ)).blt b.2.2.2 then ExtQ.val (iy : ℚ) else b.2.2.2),
      ?_, ?_⟩
  · simp only [aspectBoundsStep, hax, hay, hix, hiy, except_bind_ok]
    rfl
  · rcases hb with rfl | ⟨⟨q1, h1⟩, ⟨q2, h2⟩, ⟨q3, h3⟩, ⟨q4, h4⟩⟩
    · exact ⟨⟨(ax : ℚ), rfl⟩, ⟨(ay : ℚ), rfl⟩, ⟨(ix : ℚ), rfl⟩, ⟨(iy : ℚ), rfl⟩⟩
    · exact ⟨by rw [h1]; exact exists_val_ite _ _ _ ⟨q1, rfl⟩,
        by rw [h2]; exact exists_val_ite _ _ _ ⟨q2, rfl⟩,
        by rw [h3]; exact exists_val_ite _ _ _ ⟨q3, rfl⟩,
        by rw [h4]; exact exists_val_ite _ _ _ ⟨q4, rfl⟩⟩

/-- The bounding-box fold of `extract_aspect_ratio` over a dict of
non-empty strokes succeeds; over a non-empty dict it produces finite
bounds. -/
theorem aspect_fold_ok (td : TraceDict) :
    ∀ b, (∀ kv ∈ td, kv.2 ≠ []) →
      (b = (ExtQ.negInf, ExtQ.negInf, ExtQ.posInf, ExtQ.posInf) ∨ Finite4 b) →
      ∃ b', td.foldlM aspectBoundsStep b = Except.ok b' ∧
        (td = [] → b' = b) ∧ (td ≠ [] → Finite4 b') := by
  induction td with
  | nil => intro b _ _; exact ⟨b, rfl, fun _ => rfl, fun h => absurd rfl h⟩
  | cons kv rest ih =>
    intro b hall hb
    obtain ⟨b1, hstep, hfin⟩ := aspectBoundsStep_ok b kv (hall kv (by simp)) hb
    obtain ⟨b', hfold, hnil, hfin'⟩ := ih b1 (fun x hx => hall x (by simp [hx]))
      (Or.inr hfin)
    refine ⟨b', ?_, fun h => by simp at h, fun _ => ?_⟩
    · rw [List.foldlM_cons, hstep, except_bind_ok]
      exact hfold
    · by_cases hr : rest = []
      · exact hnil hr ▸ hfin
      · exact hfin' hr

/-- Subtraction of finite extended values. -/
theorem sub_val (a b : ℚ) :
    ExtQ.sub (ExtQ.val a) (ExtQ.val b) = ExtQ.val (a - b) := by
  simp [ExtQ.sub, ExtQ.add, ExtQ.neg, sub_eq_add_neg]

/-- Comparison of finite extended values. -/
theorem ble_val (a b : ℚ) :
    ExtQ.ble (ExtQ.val a) (ExtQ.val b) = decide (a ≤ b) := rfl

/-- Division of finite extended values with a non-zero divisor. -/
theorem div_val (a b : ℚ) (hb : b ≠ 0) :
    ExtQ.div (ExtQ.val a) (ExtQ.val b) = ExtQ.val (a / b) := by
  simp [ExtQ.div, hb]

/-- `extract_aspect_ratio` succeeds on any dict of non-empty strokes
(including the empty dict, where the clamped infinite bounds give 1). -/
theorem extract_aspect_ratio_ok (td : TraceDict) (h : ∀ kv ∈ td, kv.2 ≠ []) :
    ∃ v, extract_aspect_ratio td = Except.ok v := by
  obtain ⟨b', hfold, -, -⟩ := aspect_fold_ok td _ h (Or.inl rfl)
  refine ⟨(if (b'.1.sub b'.2.2.1).ble (ExtQ.val 0) then ExtQ.val (1 / 100)
      else b'.1.sub b'.2.2.1).div
    (if (b'.2.1.sub b'.2.2.2).ble (ExtQ.val 0) then ExtQ.val (1 / 100)
      else b'.2.1.sub b'.2.2.2), ?_⟩
  simp only [extract_aspect_ratio, hfold, except_bind_ok]
  rfl

/-- Core positivity: on a non-empty dict of non-empty strokes, the aspect
ratio is a finite, strictly positive rational. -/
theorem extract_aspect_ratio_pos_core (td : TraceDict) (h1 : td ≠ [])
    (h2 : ∀ kv ∈ td, kv.2 ≠ []) :
    ∃ q, extract_aspect_ratio td = Except.ok (ExtQ.val q) ∧ 0 < q := by
  obtain ⟨b', hfold, -, hfin⟩ := aspect_fold_ok td _ h2 (Or.inl rfl)
  obtain ⟨⟨mx, hmx⟩, ⟨my, hmy⟩, ⟨nx, hnx⟩, ⟨ny, hny⟩⟩ := hfin h1
  have hkey : extract_aspect_ratio td = Except.ok
      ((if (ExtQ.val (mx - nx)).ble (ExtQ.val 0) then ExtQ.val (1 / 100)
        else ExtQ.val (mx - nx)).div
       (if (ExtQ.val (my - ny)).ble (ExtQ.val 0) then ExtQ.val (1 / 100)
        else ExtQ.val (my - ny))) := by
    simp only [extract_aspect_ratio, hfold, except_bind_ok]
    rw [hmx, hmy, hnx, hny, sub_val, sub_val]
    rfl
  obtain ⟨wq, hwq, hwpos⟩ : ∃ w, (if (ExtQ.val (mx - nx)).ble (ExtQ.val 0)
      then ExtQ.val (1 / 100) else ExtQ.val (mx - nx)) = ExtQ.val w ∧ 0 < w := by
    by_cases hc : mx - nx ≤ 0
    · exact ⟨1 / 100, if_pos (by rw [ble_val]; exact decide_eq_true hc), by norm_num⟩
    · exact ⟨mx - nx, if_neg (by rw [ble_val]; simp [hc]), by linarith⟩
  obtain ⟨hq, hhq, hhpos⟩ : ∃ hh, (if (ExtQ.val (my - ny)).ble (ExtQ.val 0)
      then ExtQ.val (1 / 100) else ExtQ.val (my - ny)) = ExtQ.val hh ∧ 0 < hh := by
    by_cases hc : my - ny ≤ 0
    · exact ⟨1 / 100, if_pos (by rw [ble_val]; exact decide_eq_true hc), by norm_num⟩
    · exact ⟨my - ny, if_neg (by rw [ble_val]; simp [hc]), by linarith⟩
  rw [hwq, hhq, div_val _ _ (ne_of_gt hhpos)] at hkey
  exact ⟨wq / hq, hkey, div_pos hwpos hhpos⟩

/-! ### Lemmas about the full pipeline -/

/-- A successful duplicate collapse only ever produces non-empty strokes
(if any input stroke were empty, the collapse would have raised
`IndexError` instead). -/
theorem dedup_ok_strokes_ne_nil (td td1 : TraceDict)
    (h : remove_consecutive_duplicate_points td = Except.ok td1) :
    ∀ kv ∈ td1, kv.2 ≠ [] := by
  by_cases hall : ∀ kv ∈ td, kv.2 ≠ []
  · obtain ⟨td1', h', hne⟩ := dedup_ok td hall
    rw [h] at h'
    injection h' with he
    rw [← he] at hne
    exact hne
  · have herr := dedup_err td (by push_neg at hall; exact hall)
    rw [herr] at h
    exact Except.noConfusion h

/-- When duplicate collapse and smoothing both complete without raising,
the pipeline runs through the first three extractors and then dies with
`NameError` on the unresolved name `trace_groups` at the
`extract_frequencies` call. -/
theorem features_nameError (interp : Interp) (atan : ℚ → ℚ) (uid : String)
    (td td1 td2 : TraceDict)
    (hded : remove_consecutive_duplicate_points td = Except.ok td1)
    (hsm : smooth_points interp td1 = Except.ok td2) :
    extract_features interp atan uid td =
      Except.error (PyError.nameError "trace_groups") := by
  have hne1 := dedup_ok_strokes_ne_nil td td1 hded
  have hne2 := smooth_ok_ne_nil interp td1 td2 hne1 hsm
  obtain ⟨v, hasp⟩ := extract_aspect_ratio_ok td2 hne2
  have hname : ¬("trace_groups" ∈ extractFeaturesLocalNames ∨
      "trace_groups" ∈ crohmeModuleNames) := by decide
  simp only [extract_features, hded, except_bind_ok, hsm, hasp, if_neg hname]
  rfl

/-! ### Claim theorems -/

/-- Claim C1 (amended): `extract_features` never returns a feature record,
for any input and any behavior of the scipy fit; and whenever duplicate
collapse and smoothing complete without raising — in particular for every
sample on which the interpolation succeeds — the failure is the
`NameError` at the `extract_frequencies(trace_groups)` call.  (An input
with an empty stroke raises `IndexError` earlier in duplicate collapse,
and the fit itself may raise during smoothing, e.g. scipy's `ValueError`
on strokes like `[p,q,q]` whose trailing duplicate survives the collapse;
in those cases the propagated error is that earlier one.) -/
theorem extract_features_never_succeeds (interp : Interp) (atan : ℚ → ℚ)
    (uid : String) (td : TraceDict) :
    (extract_features interp atan uid td).isOk = false ∧
    (∀ td1 td2, remove_consecutive_duplicate_points td = Except.ok td1 →
      smooth_points interp td1 = Except.ok td2 →
      extract_features interp atan uid td =
        Except.error (PyError.nameError "trace_groups")) := by
  constructor
  · cases hded : remove_consecutive_duplicate_points td with
    | error e =>
      have h : extract_features interp atan uid td = Except.error e := by
        simp only [extract_features, hded]
        rfl
      rw [h]
      rfl
    | ok td1 =>
      cases hsm : smooth_points interp td1 with
      | error e =>
        have h : extract_features interp atan uid td = Except.error e := by
          simp only [extract_features, hded, except_bind_ok, hsm]
          rfl
        rw [h]
        rfl
      | ok td2 =>
        rw [features_nameError interp atan uid td td1 td2 hded hsm]
        rfl
  · intro td1 td2 hded hsm
    exact features_nameError interp atan uid td td1 td2 hded hsm

/-- Claim C1 witness: a well-formed single-point sample, on which both
collapse and smoothing succeed, hits the `NameError`. -/
theorem extract_features_never_succeeds_witness :
    extract_features interpNone atanZero "u" [(0, [((0 : Int), (0 : Int))])] =
      Except.error (PyError.nameError "trace_groups") :=
  (extract_features_never_succeeds interpNone atanZero "u"
    [(0, [((0 : Int), (0 : Int))])]).2 [(0, [((0 : Int), (0 : Int))])]
    [(0, [((0 : Int), (0 : Int))])] (by decide) (by decide)

/-- Claim C1 counterexample: on an input containing an empty stroke (which
the parser can produce), `extract_features` raises `IndexError` in
duplicate collapse, not a `NameError`, so the claim's universal
"raises a NameError" fails as stated. -/
theorem extract_features_empty_stroke_not_nameError :
    extract_features interpNone atanZero "u" [(0, ([] : List Point))] =
      Except.error PyError.indexError ∧
    PyError.indexError ≠ PyError.nameError "trace_groups" := by
  constructor
  · decide
  · decide

/-- Claim C2: `extract_frequencies` as written iterates the dict, hence its
int keys, and passes a key to the coordinate splitter, raising `TypeError`
on the very first stroke of any non-empty StrokeSet — no histogram is ever
returned (here evaluated at the one-point sample `{0: [(0,0)]}`). -/
theorem extract_frequencies_raises_typeError :
    extract_frequencies [(0, [((0 : Int), (0 : Int))])] =
      Except.error (PyError.typeError "int object is not iterable") := by
  decide

/-- Claim C3 (amended): on every non-empty stroke, duplicate collapse
succeeds and never increases the stroke's length, never removes the first
point, and keeps the last point whenever it differs from the FIRST point
of the stroke; when the last point equals the first point it is not
appended, regardless of how many points survive the reduction. -/
theorem remove_dups_stroke_endpoint_spec (points : List Point)
    (h : points ≠ []) :
    (remove_dups_stroke points).isOk = true ∧
    ∀ res, remove_dups_stroke points = Except.ok res →
      res ≠ [] ∧ res.length ≤ points.length ∧
      res.headD (0, 0) = points.headD (0, 0) ∧
      (points.headD (0, 0) ≠ points.getLastD (0, 0) →
        res.getLastD (0, 0) = points.getLastD (0, 0)) := by
  cases points with
  | nil => exact absurd rfl h
  | cons p0 rest =>
    obtain ⟨res, heq, hne, hlen, hhead, hlast⟩ := remove_dups_stroke_spec p0 rest
    constructor
    · rw [heq]; rfl
    · intro res' hres'
      rw [heq] at hres'
      injection hres' with h'
      subst h'
      exact ⟨hne, hlen, by simpa using hhead, by simpa using hlast⟩

/-- Claim C3 witness: the two-point stroke `[(0,0),(1,1)]`. -/
theorem remove_dups_stroke_endpoint_spec_witness :
    (remove_dups_stroke [((0 : Int), (0 : Int)), (1, 1)]).isOk = true :=
  (remove_dups_stroke_endpoint_spec [((0 : Int), (0 : Int)), (1, 1)]
    (by decide)).1

/-- Claim C3 counterexample: on `[(0,0),(1,1),(0,0)]` the reduced stroke
has two points, yet the final `(0,0)` is dropped because it equals the
FIRST point — the claim's "only for a single-point-after-reduction stroke"
exception is not what the code tests. -/
theorem remove_dups_stroke_drops_last_equal_first :
    remove_dups_stroke [((0 : Int), (0 : Int)), (1, 1), (0, 0)] =
      Except.ok [(0, 0), (1, 1)] ∧
    ([((0 : Int), (0 : Int)), (1, 1)] : List Point).length = 2 ∧
    ([((0 : Int), (0 : Int)), (1, 1)] : List Point).getLastD (0, 0) ≠
      ([((0 : Int), (0 : Int)), (1, 1), (0, 0)] : List Point).getLastD (0, 0) := by
  refine ⟨by decide, by decide, by decide⟩

/-- Claim C4 (amended): a one-point stroke passes through duplicate
collapse unchanged, and every stroke with at most one point (the empty
stroke included) passes through the smoother unchanged; the empty stroke
does NOT pass through duplicate collapse — see the counterexample. -/
theorem short_stroke_transforms :
    (∀ p : Point, remove_dups_stroke [p] = Except.ok [p]) ∧
    (∀ (interp : Interp) (points : List Point), points.length ≤ 1 →
      smooth_stroke interp points = Except.ok points) := by
  constructor
  · intro p
    simp [remove_dups_stroke]
  · exact smooth_stroke_short

/-- Claim C4 witness: both identity transforms at the one-point stroke
`[(5,7)]` and the smoother at the empty stroke. -/
theorem short_stroke_transforms_witness :
    remove_dups_stroke [((5 : Int), (7 : Int))] = Except.ok [(5, 7)] ∧
    smooth_stroke interpNone ([] : List Point) = Except.ok [] :=
  ⟨short_stroke_transforms.1 ((5 : Int), (7 : Int)),
    short_stroke_transforms.2 interpNone [] (by decide)⟩

/-- Claim C4 counterexample: on the empty stroke, duplicate collapse reads
`points[0]` and raises `IndexError` instead of returning the stroke
unchanged. -/
theorem remove_dups_stroke_empty_raises :
    remove_dups_stroke ([] : List Point) = Except.error PyError.indexError := by
  decide

/-- Claim C5: on a sample whose StrokeSet is empty, `extract_features`
fails — but with the `NameError` on `trace_groups` that every sample hits,
not with a dedicated Empty-stroke-set error (no such error exists in the
code; before the failure the code computes a clamped aspect ratio and an
`np.mean` of an empty list). -/
theorem extract_features_empty_dict_result :
    extract_features interpNone atanZero "u" ([] : TraceDict) =
      Except.error (PyError.nameError "trace_groups") := by
  decide

/-- Claim C6: on a non-empty StrokeSet whose strokes are all non-empty,
the aspect ratio is a finite, strictly positive value — the `0.01`
clamping covers degenerate bounding boxes. -/
theorem extract_aspect_ratio_finite_positive (td : TraceDict) (h1 : td ≠ [])
    (h2 : ∀ kv ∈ td, kv.2 ≠ []) :
    (extract_aspect_ratio td).isOk = true ∧
    ∀ v, extract_aspect_ratio td = Except.ok v → v.isPosVal = true := by
  obtain ⟨q, hq, hpos⟩ := extract_aspect_ratio_pos_core td h1 h2
  refine ⟨by rw [hq]; rfl, ?_⟩
  intro v hv
  rw [hq] at hv
  injection hv with h'
  subst h'
  simp [ExtQ.isPosVal, hpos]

/-- Claim C6 witness: the one-point sample, whose bounding box is
degenerate in both axes. -/
theorem extract_aspect_ratio_finite_positive_witness :
    (extract_aspect_ratio [(0, [((0 : Int), (0 : Int))])]).isOk = true :=
  (extract_aspect_ratio_finite_positive [(0, [((0 : Int), (0 : Int))])]
    (by decide) (by decide)).1

/-- Claim C7: every per-stroke direction list has length at most 4 and no
repeated code, and an iteration of the direction loop starting from an
accumulator that already has 4 codes appends nothing. -/
theorem direction_codes_bounded (points : List Point) :
    (directions_for_trace points).length ≤ 4 ∧
    (directions_for_trace points).Nodup ∧
    (∀ x_coors y_coors acc i, 4 ≤ acc.length →
      dirStep x_coors y_coors acc i = acc) := by
  have hinv : DirInv (directions_for_trace points) := by
    simp only [directions_for_trace]
    exact dir_fold_inv _ _ _ [] ⟨List.nodup_nil, by simp⟩
  refine ⟨dirInv_length _ hinv, hinv.1, ?_⟩
  intro xc yc acc i hlen
  unfold dirStep
  rw [if_neg (by omega)]

/-- Claim C7 witness: a saturated accumulator is left untouched. -/
theorem direction_codes_bounded_witness :
    dirStep [] [] [up, down, left, right] 1 = [up, down, left, right] :=
  (direction_codes_bounded []).2.2 [] [] [up, down, left, right] 1 (by decide)

/-- Claim C8: on the StrokeSet `{0: [(0,0),(1,1)]}` the direction
extractor returns exactly `[up, right]`: the step increases both y and x,
the vertical test runs first, and both codes are recorded for the single
step. -/
theorem directions_up_right_sample :
    extract_directions [(0, [((0 : Int), (0 : Int)), (1, 1)])] = [up, right] := by
  decide

/-- Claim C9: a stroke with at most 4 points contributes exactly 0 to
curvature (its guard forbids every append); a stroke with no computed
slope contributes 0; any other stroke contributes the mean of its computed
slopes; and the sample-level curvature is the mean of the per-stroke
contributions. -/
theorem curvature_structure (atan : ℚ → ℚ) (td : TraceDict)
    (points : List Point) :
    (points.length ≤ 4 → strokeCurvature atan points = 0) ∧
    (trace_curves atan points = [] → strokeCurvature atan points = 0) ∧
    (trace_curves atan points ≠ [] →
      strokeCurvature atan points = listMean (trace_curves atan points)) ∧
    (td ≠ [] → extract_curvature atan td =
      listMean (td.map (fun kv => strokeCurvature atan kv.2))) := by
  refine ⟨?_, ?_, ?_, ?_⟩
  · intro h
    rw [strokeCurvature, trace_curves_short atan points h]
    rfl
  · intro h
    rw [strokeCurvature, h]
    rfl
  · intro h
    rw [strokeCurvature, if_neg (by simpa [List.length_eq_zero] using h)]
  · intro _
    rw [extract_curvature, foldl_concat_eq_map]
    rfl

/-- Claim C9 witness: the same structure evaluated at a one-point stroke
and a one-stroke dict. -/
theorem curvature_structure_witness :
    strokeCurvature atanZero [((0 : Int), (0 : Int))] = 0 :=
  (curvature_structure atanZero [(0, [((0 : Int), (0 : Int))])]
    [((0 : Int), (0 : Int))]).1 (by decide)

/-- Claim C10: on `{0: [(0,0),(0,0),(2,0),(2,0),(2,3)]}` duplicate
collapse yields `[(0,0),(2,0),(2,3)]`, and the aspect ratio of the
collapsed StrokeSet is 2/3 (width 2, height 3). -/
theorem collapse_and_aspect_sample :
    remove_consecutive_duplicate_points
        [(0, [((0 : Int), (0 : Int)), (0, 0), (2, 0), (2, 0), (2, 3)])] =
      Except.ok [(0, [(0, 0), (2, 0), (2, 3)])] ∧
    extract_aspect_ratio [(0, [((0 : Int), (0 : Int)), (2, 0), (2, 3)])] =
      Except.ok (ExtQ.val (2 / 3)) := by
  constructor
  · decide
  · norm_num [extract_aspect_ratio, aspectBoundsStep, np_amax, np_amin,
      separate_x_y_coors_from_points, List.foldlM, ExtQ.blt, ExtQ.sub,
      ExtQ.add, ExtQ.neg, ExtQ.ble, ExtQ.div, bind, Except.bind, pure,
      Except.pure]

end CROHME
